import Mathlib

/-!
Verification of the vehicle-registry program in `cars.go`: a `Carro` record
type, a `CadastroCarros` store holding a lookup map and an ordered slice,
JSON persistence (`SalvarJSON` / `CarregarJSON`), the CRUD operations
(`AdicionarCarro`, `BuscarCarro`, `RemoverCarro`, `AtualizarCarro`), and the
interactive command parser of `main`.  Go machine values are embedded
shallowly: `int` as `Int`, `float64` prices as `Rat`, strings as `String`,
the Go map as an association list, and the possibly-nil Go slice as
`Option (List Carro)` (`none` = nil slice).
-/

namespace Cars

/-- ASCII uppercase test, the discriminating case of `strings.ToLower` for
the identifiers at issue. -/
def isAsciiUpper (c : Char) : Bool := 65 ≤ c.toNat && c.toNat ≤ 90

/-- Per-character lowercasing as performed by `strings.ToLower` on ASCII. -/
def goCharToLower (c : Char) : Char :=
  if isAsciiUpper c then Char.ofNat (c.toNat + 32) else c

/-- `strings.ToLower` (line 379 of cars.go), character by character. -/
def goToLower (s : String) : String := String.mk (s.data.map goCharToLower)

/-- Whitespace as recognised by `strings.TrimSpace` / `strings.Fields`. -/
def goIsSpace (c : Char) : Bool := c = ' ' || c = '\t' || c = '\n' || c = '\r'

/-- `strings.TrimSpace`: drop whitespace from both ends. -/
def goTrimSpace (s : String) : String :=
  String.mk (((s.data.dropWhile goIsSpace).reverse.dropWhile goIsSpace).reverse)

/-- Accumulator pass behind `strings.Fields`: split on whitespace runs,
dropping empty fields. -/
def fieldsAux : List Char → List Char → List (List Char)
  | [], acc => if acc = [] then [] else [acc.reverse]
  | c :: rest, acc =>
    if goIsSpace c then
      if acc = [] then fieldsAux rest [] else acc.reverse :: fieldsAux rest []
    else fieldsAux rest (c :: acc)

/-- `strings.Fields` (line 381 of cars.go). -/
def goFields (s : String) : List String := (fieldsAux s.data []).map String.mk

/-- The character `fmt.Sprintf("%d", _)` prints for one decimal digit. -/
def digitChar (d : Nat) : Char := Char.ofNat (48 + d)

/-- Fuelled decimal printing; with fuel above `n` it yields the digits of
`n` most significant first, as `%d` does. -/
def decDigitsAux : Nat → Nat → List Char
  | 0, _ => []
  | fuel + 1, n =>
    if n < 10 then [digitChar n]
    else decDigitsAux fuel (n / 10) ++ [digitChar (n % 10)]

/-- Decimal digit string of `n`, as printed by `fmt.Sprintf("%d", n)`. -/
def decDigits (n : Nat) : List Char := decDigitsAux (n + 1) n

/-- Value of a decimal digit string (proof inverse of `decDigits`). -/
def decVal (l : List Char) : Nat := l.foldl (fun acc c => acc * 10 + (c.toNat - 48)) 0

/-- ID generation of `AdicionarCarro` (line 104):
`fmt.Sprintf("car_%d", time.Now().UnixNano())`. -/
def gerarID (nano : Nat) : String :=
  String.mk ('c' :: 'a' :: 'r' :: '_' :: decDigits nano)

/-- One vehicle record, mirroring struct `Carro` of cars.go.  Go `float64`
prices are embedded as rationals, Go `int` years as integers. -/
structure Carro where
  ID : String
  Marca : String
  Modelo : String
  Ano : Int
  Cor : String
  Preco : Rat
  PaisOrigem : String
  DataCadastro : String
deriving DecidableEq

/-- The backing-file document at the level of detail `encoding/json`
round-trips for `[]Carro`: `null` (marshalling of a nil slice), an array of
records, or content that does not unmarshal into `[]Carro`. -/
inductive JDoc where
  | null : JDoc
  | arr : List Carro → JDoc
  | bad : JDoc
deriving DecidableEq

/-- In-memory registry plus backing file, mirroring struct `CadastroCarros`:
the lookup map as an association list, the ordered slice with `none`
modelling a nil Go slice, and the file content (`none` = file absent). -/
structure CadastroCarros where
  carrosMap : List (String × Carro)
  carros : Option (List Carro)
  arquivo : Option JDoc
deriving DecidableEq

/-- The records of the ordered slice (a nil slice ranges over nothing). -/
def elems (c : CadastroCarros) : List Carro := c.carros.getD []

/-- Result of a `var s []Carro` + conditional `append` loop: the slice stays
nil when nothing was appended. -/
def rebuildGoSlice (l : List Carro) : Option (List Carro) :=
  if l = [] then none else some l

/-- Go map assignment `m[k] = v` on the association-list model: replace the
entry when the key is present, append otherwise. -/
def mapInsert (m : List (String × Carro)) (k : String) (v : Carro) :
    List (String × Carro) :=
  if m.any (fun p => p.1 == k) then m.map (fun p => if p.1 == k then (k, v) else p)
  else m ++ [(k, v)]

/-- Go `delete(m, k)`. -/
def mapErase (m : List (String × Carro)) (k : String) : List (String × Carro) :=
  m.filter (fun p => p.1 != k)

/-- The association list a list of records induces (each record keyed by its
identifier, in slice order). -/
def mapOf (l : List Carro) : List (String × Carro) :=
  l.map (fun carro => (carro.ID, carro))

/-- The map-rebuild loop of `CarregarJSON` (lines 344-347). -/
def buildMap (l : List Carro) : List (String × Carro) :=
  l.foldl (fun m carro => mapInsert m carro.ID carro) []

/-- `json.MarshalIndent(c.carros, "", "  ")` at document level: a nil slice
marshals to `null`, any other slice to the array of its records (in order,
with the struct's stable field order and two-space indentation). -/
def marshalJSON : Option (List Carro) → JDoc
  | none => JDoc.null
  | some l => JDoc.arr l

/-- `SalvarJSON` (lines 312-324): marshal the slice and overwrite the file. -/
def SalvarJSON (c : CadastroCarros) : CadastroCarros :=
  { c with arquivo := some (marshalJSON c.carros) }

/-- `CarregarJSON` (lines 327-350): a missing file succeeds with no change;
content that does not unmarshal fails with no change; otherwise the slice is
replaced by the file's records and the map is rebuilt from them.  The
returned flag is `true` when the Go function returns a nil error. -/
def CarregarJSON (c : CadastroCarros) : CadastroCarros × Bool :=
  match c.arquivo with
  | none => (c, true)
  | some JDoc.bad => (c, false)
  | some JDoc.null => ({ c with carros := none, carrosMap := [] }, true)
  | some (JDoc.arr l) => ({ c with carros := some l, carrosMap := buildMap l }, true)

/-- The console input consumed by one `AdicionarCarro` call, after
`strings.TrimSpace` and `strconv` parsing: `none` for year or price stands
for input that does not parse as a number.  `nano` is the
`time.Now().UnixNano()` reading, `dataCadastro` the formatted date. -/
structure AddInput where
  marca : String
  modelo : String
  ano : Option Int
  cor : String
  preco : Option Rat
  paisOrigem : String
  nano : Nat
  dataCadastro : String
deriving DecidableEq

/-- The record `AdicionarCarro` builds from a (valid) input. -/
def mkCarro (i : AddInput) : Carro :=
  { ID := gerarID i.nano
    Marca := i.marca
    Modelo := i.modelo
    Ano := i.ano.getD 0
    Cor := i.cor
    Preco := i.preco.getD 0
    PaisOrigem := i.paisOrigem
    DataCadastro := i.dataCadastro }

/-- The validation performed by `AdicionarCarro` (lines 61-101): make, model
and country non-empty, year parsed and in `(0, currentYear+1]`, price parsed
and strictly positive. -/
def validAdd (anoAtual : Int) (i : AddInput) : Bool :=
  i.marca != "" && i.modelo != "" &&
    (match i.ano with
     | none => false
     | some ano => decide (0 < ano) && decide (ano ≤ anoAtual + 1)) &&
    (match i.preco with
     | none => false
     | some preco => decide (0 < preco)) &&
    i.paisOrigem != ""

/-- `AdicionarCarro` (lines 47-129): validate field by field in source
order, returning with no state change on the first failure; on success
insert the new record in the map and append it to the slice, then save.
The flag is `true` when a record was inserted. -/
def AdicionarCarro (anoAtual : Int) (c : CadastroCarros) (i : AddInput) :
    CadastroCarros × Bool :=
  if i.marca = "" then (c, false)
  else if i.modelo = "" then (c, false)
  else
    match i.ano with
    | none => (c, false)
    | some ano =>
      if ¬ (0 < ano ∧ ano ≤ anoAtual + 1) then (c, false)
      else
        match i.preco with
        | none => (c, false)
        | some preco =>
          if ¬ (0 < preco) then (c, false)
          else if i.paisOrigem = "" then (c, false)
          else
            let novo := mkCarro i
            let c2 : CadastroCarros :=
              { c with carrosMap := mapInsert c.carrosMap novo.ID novo
                       carros := some (elems c ++ [novo]) }
            (SalvarJSON c2, true)

/-- `BuscarCarro` (lines 149-162): read-only map lookup. -/
def BuscarCarro (c : CadastroCarros) (id : String) : Option Carro :=
  c.carrosMap.lookup id

/-- `RemoverCarro` (lines 165-190): not-found leaves everything untouched;
otherwise delete the key from the map, rebuild the slice keeping the records
whose identifier differs, and save.  The rebuilt slice is nil when no record
survives. -/
def RemoverCarro (c : CadastroCarros) (id : String) : CadastroCarros × Bool :=
  match c.carrosMap.lookup id with
  | none => (c, false)
  | some _ =>
    (SalvarJSON
      { c with carrosMap := mapErase c.carrosMap id
               carros := rebuildGoSlice ((elems c).filter (fun carro => carro.ID != id)) },
      true)

/-- The per-field updates of `AtualizarCarro` (lines 218-289), in source
order.  A text field updates exactly when its input is non-blank; year and
price update exactly when the input parses (`some`) and passes the same
range check as creation; identifier and registration date are never
touched. -/
def atualizaCampos (anoAtual : Int) (carro : Carro) (novaMarca novoModelo : String)
    (novoAno : Option Int) (novaCor : String) (novoPreco : Option Rat)
    (novoPais : String) : Carro :=
  let c1 := if novaMarca = "" then carro else { carro with Marca := novaMarca }
  let c2 := if novoModelo = "" then c1 else { c1 with Modelo := novoModelo }
  let c3 :=
    match novoAno with
    | none => c2
    | some ano => if 0 < ano ∧ ano ≤ anoAtual + 1 then { c2 with Ano := ano } else c2
  let c4 := if novaCor = "" then c3 else { c3 with Cor := novaCor }
  let c5 :=
    match novoPreco with
    | none => c4
    | some preco => if 0 < preco then { c4 with Preco := preco } else c4
  if novoPais = "" then c5 else { c5 with PaisOrigem := novoPais }

/-- `AtualizarCarro` (lines 193-309): not-found leaves everything untouched
(the check precedes any prompt); otherwise the record from the map is
updated field by field, written back into the map, substituted for every
slice entry carrying the identifier, and the collection is saved. -/
def AtualizarCarro (anoAtual : Int) (c : CadastroCarros) (id : String)
    (novaMarca novoModelo : String) (novoAno : Option Int) (novaCor : String)
    (novoPreco : Option Rat) (novoPais : String) : CadastroCarros × Bool :=
  match c.carrosMap.lookup id with
  | none => (c, false)
  | some carro =>
    (SalvarJSON
      { c with carrosMap := mapInsert c.carrosMap id
                 (atualizaCampos anoAtual carro novaMarca novoModelo novoAno novaCor
                   novoPreco novoPais)
               carros := rebuildGoSlice ((elems c).map (fun old =>
                 if old.ID = id then
                   atualizaCampos anoAtual carro novaMarca novoModelo novoAno novaCor
                     novoPreco novoPais
                 else old)) },
      true)

/-- `NewCadastroCarros` (lines 38-44): empty map, empty (non-nil) slice; the
backing file exists independently with content `f`. -/
def initCadastro (f : Option JDoc) : CadastroCarros :=
  { carrosMap := [], carros := some [], arquivo := f }

/-- One mutating registry operation, with the console input it consumes. -/
inductive Op where
  | add : AddInput → Op
  | remove : String → Op
  | update : String → String → String → Option Int → String → Option Rat → String → Op
  | load : Op
deriving DecidableEq

def execOp (anoAtual : Int) (c : CadastroCarros) : Op → CadastroCarros
  | Op.add i => (AdicionarCarro anoAtual c i).1
  | Op.remove id => (RemoverCarro c id).1
  | Op.update id a b d e f g => (AtualizarCarro anoAtual c id a b d e f g).1
  | Op.load => (CarregarJSON c).1

def execOps (anoAtual : Int) (c : CadastroCarros) (ops : List Op) : CadastroCarros :=
  ops.foldl (execOp anoAtual) c

def Op.isLoad : Op → Bool
  | Op.load => true
  | _ => false

/-- Environment discipline under which the two views stay in sync: each
create draws a timestamp whose identifier is not already a key (the spec's
negligible-collision design requirement), and a loaded file holds records
with pairwise-distinct identifiers. -/
def opOk (c : CadastroCarros) : Op → Bool
  | Op.add i => decide (c.carrosMap.lookup (gerarID i.nano) = none)
  | Op.load =>
    match c.arquivo with
    | some (JDoc.arr l) => decide (l.map Carro.ID).Nodup
    | _ => true
  | _ => true

def goodTrace (anoAtual : Int) (c : CadastroCarros) : List Op → Bool
  | [] => true
  | op :: ops => opOk c op && goodTrace anoAtual (execOp anoAtual c op) ops

/-- The commands `main` (lines 371-415) extracts from one input line. -/
inductive Comando where
  | add : Comando
  | list : Comando
  | find : String → Comando
  | findSemID : Comando
  | remove : String → Comando
  | removeSemID : Comando
  | update : String → Comando
  | updateSemID : Comando
  | fim : Comando
  | invalido : Comando
  | vazio : Comando
deriving DecidableEq

/-- The command dispatch of `main` (lines 379-415): the whole line is
trimmed and lowercased, split into fields, and the second field (when
required and present) becomes the identifier argument. -/
def parseComando (line : String) : Comando :=
  match goFields (goToLower (goTrimSpace line)) with
  | [] => Comando.vazio
  | cmd :: rest =>
    if cmd = "add" then Comando.add
    else if cmd = "list" then Comando.list
    else if cmd = "find" then
      match rest with
      | [] => Comando.findSemID
      | arg :: _ => Comando.find arg
    else if cmd = "remove" then
      match rest with
      | [] => Comando.removeSemID
      | arg :: _ => Comando.remove arg
    else if cmd = "update" then
      match rest with
      | [] => Comando.updateSemID
      | arg :: _ => Comando.update arg
    else if cmd = "exit" then Comando.fim
    else Comando.invalido

/-- Whether a string holds at least one ASCII uppercase letter. -/
def hasUpper (s : String) : Bool := s.data.any isAsciiUpper

/-- Whether a string holds no ASCII uppercase letter. -/
def noUpper (s : String) : Bool := s.data.all (fun c => !isAsciiUpper c)

/-- The identifier argument a parsed command carries, if any. -/
def argOf : Comando → Option String
  | Comando.find a => some a
  | Comando.remove a => some a
  | Comando.update a => some a
  | _ => none

/-- Whether a backing-file document is a JSON array. -/
def ehArray : JDoc → Bool
  | JDoc.arr _ => true
  | _ => false

/-- The repository's dual-view invariant: the lookup map is exactly the
ordered slice keyed by identifier, and slice identifiers are pairwise
distinct. -/
def ViewsSync (c : CadastroCarros) : Prop :=
  c.carrosMap = mapOf (elems c) ∧ ((elems c).map Carro.ID).Nodup

/-- The per-record field invariants of the spec's data model. -/
def ValidCarro (anoAtual : Int) (carro : Carro) : Prop :=
  carro.Marca ≠ "" ∧ carro.Modelo ≠ "" ∧ carro.PaisOrigem ≠ "" ∧
    0 < carro.Ano ∧ carro.Ano ≤ anoAtual + 1 ∧ 0 < carro.Preco

/-- Every record in either view satisfies the field invariants. -/
def ValidState (anoAtual : Int) (c : CadastroCarros) : Prop :=
  (∀ carro ∈ elems c, ValidCarro anoAtual carro) ∧
    ∀ p ∈ c.carrosMap, ValidCarro anoAtual p.2

theorem digitChar_toNat {d : Nat} (h : d < 10) : (digitChar d).toNat = 48 + d := by
  interval_cases d <;> decide

theorem decDigitsAux_mem :
    ∀ (fuel n : Nat), ∀ c ∈ decDigitsAux fuel n, 48 ≤ c.toNat ∧ c.toNat ≤ 57 := by
  intro fuel
  induction fuel with
  | zero => intro n c hc; simp [decDigitsAux] at hc
  | succ fuel ih =>
    intro n c hc
    by_cases h : n < 10
    · simp [decDigitsAux, h] at hc
      subst hc
      have := digitChar_toNat h
      omega
    · simp [decDigitsAux, h] at hc
      rcases hc with hc | hc
      · exact ih (n / 10) c hc
      · subst hc
        have h10 : n % 10 < 10 := Nat.mod_lt _ (by omega)
        have := digitChar_toNat h10
        omega

theorem decVal_append (l : List Char) (c : Char) :
    decVal (l ++ [c]) = decVal l * 10 + (c.toNat - 48) := by
  simp [decVal, List.foldl_append]

theorem decVal_decDigitsAux :
    ∀ (fuel n : Nat), n < fuel → decVal (decDigitsAux fuel n) = n := by
  intro fuel
  induction fuel with
  | zero => intro n h; omega
  | succ fuel ih =>
    intro n h
    by_cases h10 : n < 10
    · have := digitChar_toNat h10
      simp [decDigitsAux, h10, decVal]
      omega
    · have hdiv : n / 10 < fuel := by
        have : n / 10 < n := Nat.div_lt_self (by omega) (by omega)
        omega
      have hmod : n % 10 < 10 := Nat.mod_lt _ (by omega)
      simp [decDigitsAux, h10, decVal_append, ih (n / 10) hdiv, digitChar_toNat hmod]
      omega

theorem decVal_decDigits (n : Nat) : decVal (decDigits n) = n :=
  decVal_decDigitsAux (n + 1) n (by omega)

theorem decDigits_mem {n : Nat} : ∀ c ∈ decDigits n, 48 ≤ c.toNat ∧ c.toNat ≤ 57 :=
  decDigitsAux_mem (n + 1) n

theorem gerarID_inj {a b : Nat} (h : gerarID a = gerarID b) : a = b := by
  have hd : decDigits a = decDigits b := by
    have hdata := congrArg String.data h
    simpa [gerarID] using hdata
  have hv := congrArg decVal hd
  simpa [decVal_decDigits] using hv

theorem isAsciiUpper_goCharToLower (c : Char) :
    isAsciiUpper (goCharToLower c) = false := by
  by_cases h : isAsciiUpper c = true
  · have hb : 65 ≤ c.toNat ∧ c.toNat ≤ 90 := by simpa [isAsciiUpper] using h
    rw [goCharToLower, if_pos h]
    obtain ⟨h1, h2⟩ := hb
    set k := c.toNat with hk
    interval_cases k <;> decide
  · simp only [Bool.not_eq_true] at h
    simp [goCharToLower, h]

theorem goCharToLower_of_noUpper {c : Char} (h : isAsciiUpper c = false) :
    goCharToLower c = c := by
  simp [goCharToLower, h]

theorem fieldsAux_mem :
    ∀ (l acc w : List Char), w ∈ fieldsAux l acc → ∀ c ∈ w, c ∈ l ∨ c ∈ acc := by
  intro l
  induction l with
  | nil =>
    intro acc w hw c hc
    by_cases h : acc = []
    · simp [fieldsAux, h] at hw
    · simp [fieldsAux, h] at hw
      subst hw
      right
      simpa using hc
  | cons d rest ih =>
    intro acc w hw c hc
    by_cases hs : goIsSpace d = true
    · by_cases h : acc = []
      · simp only [fieldsAux, hs, h, if_true, if_pos] at hw
        rcases ih [] w (by simpa using hw) c hc with h1 | h1
        · exact Or.inl (List.mem_cons_of_mem _ h1)
        · simp at h1
      · simp only [fieldsAux, hs, h, if_true, if_neg, if_false] at hw
        rcases List.mem_cons.mp hw with hw1 | hw1
        · subst hw1
          right
          simpa using hc
        · rcases ih [] w hw1 c hc with h1 | h1
          · exact Or.inl (List.mem_cons_of_mem _ h1)
          · simp at h1
    · simp only [Bool.not_eq_true] at hs
      simp only [fieldsAux, hs, Bool.false_eq_true, if_false] at hw
      rcases ih (d :: acc) w hw c hc with h1 | h1
      · exact Or.inl (List.mem_cons_of_mem _ h1)
      · rcases List.mem_cons.mp h1 with h2 | h2
        · exact Or.inl (h2 ▸ List.mem_cons_self _ _)
        · exact Or.inr h2

theorem goFields_chars {s arg : String} (h : arg ∈ goFields s) :
    ∀ c ∈ arg.data, c ∈ s.data := by
  intro c hc
  simp only [goFields, List.mem_map] at h
  obtain ⟨w, hw, rfl⟩ := h
  have hcw : c ∈ w := hc
  rcases fieldsAux_mem s.data [] w hw c hcw with h1 | h1
  · exact h1
  · simp at h1

theorem noUpper_of_mem_fields_toLower {s arg : String}
    (h : arg ∈ goFields (goToLower s)) : noUpper arg = true := by
  simp only [noUpper, List.all_eq_true]
  intro c hc
  have hmem := goFields_chars h c hc
  simp only [goToLower] at hmem
  have hmem2 : c ∈ s.data.map goCharToLower := hmem
  rcases List.mem_map.mp hmem2 with ⟨d, _, rfl⟩
  simp [isAsciiUpper_goCharToLower]

theorem goToLower_of_noUpper {s : String} (h : noUpper s = true) : goToLower s = s := by
  simp only [noUpper, List.all_eq_true] at h
  cases s with
  | mk data =>
    simp only [goToLower]
    congr 1
    induction data with
    | nil => rfl
    | cons c rest ih =>
      simp only [List.map_cons]
      rw [goCharToLower_of_noUpper (by simpa using h c (List.mem_cons_self _ _)),
        ih (fun d hd => h d (List.mem_cons_of_mem _ hd))]

theorem argOf_parseComando {line arg : String}
    (h : argOf (parseComando line) = some arg) :
    arg ∈ goFields (goToLower (goTrimSpace line)) := by
  unfold parseComando at h
  cases hp : goFields (goToLower (goTrimSpace line)) with
  | nil => rw [hp] at h; simp [argOf] at h
  | cons cmd rest =>
    rw [hp] at h
    dsimp only at h
    split_ifs at h
    all_goals try simp [argOf] at h
    all_goals
      cases rest with
      | nil => simp [argOf] at h
      | cons a t =>
        simp only [argOf, Option.some.injEq] at h
        exact h ▸ List.mem_cons_of_mem _ (List.mem_cons_self _ _)

theorem noUpper_gerarID (n : Nat) : noUpper (gerarID n) = true := by
  simp only [noUpper, gerarID, List.all_eq_true]
  intro c hc
  rcases List.mem_cons.mp hc with rfl | hc
  · decide
  rcases List.mem_cons.mp hc with rfl | hc
  · decide
  rcases List.mem_cons.mp hc with rfl | hc
  · decide
  rcases List.mem_cons.mp hc with rfl | hc
  · decide
  have hmem := decDigits_mem c hc
  have hfalse : isAsciiUpper c = false := by
    simp only [isAsciiUpper]
    rw [Bool.and_eq_false_iff]
    left
    simp only [decide_eq_false_iff_not]
    omega
  simp [hfalse]

theorem lookup_eq_none_iff {m : List (String × Carro)} {k : String} :
    List.lookup k m = none ↔ ∀ p ∈ m, p.1 ≠ k := by
  induction m with
  | nil => simp
  | cons q t ih =>
    by_cases h : k = q.1
    · simp [List.lookup, h]
    · have hb : (k == q.1) = false := by simp [h]
      simp only [List.lookup, hb, if_false, cond_false, List.mem_cons, ih]
      constructor
      · intro hall p hp
        rcases hp with rfl | hp
        · exact fun he => h he.symm
        · exact hall p hp
      · intro hall p hp
        exact hall p (Or.inr hp)

theorem any_key_eq_false {m : List (String × Carro)} {k : String}
    (h : ∀ p ∈ m, p.1 ≠ k) : m.any (fun p => p.1 == k) = false := by
  rw [List.any_eq_false]
  intro p hp
  simpa using h p hp

theorem lookup_some_any {m : List (String × Carro)} {k : String} {v : Carro}
    (h : List.lookup k m = some v) : m.any (fun p => p.1 == k) = true := by
  induction m with
  | nil => simp [List.lookup] at h
  | cons q t ih =>
    by_cases hq : k = q.1
    · simp [List.any_cons, hq]
    · have hb : (k == q.1) = false := by simp [hq]
      simp only [List.lookup, hb, cond_false] at h
      simp [List.any_cons, ih h]

theorem mapInsert_fresh {m : List (String × Carro)} {k : String} {v : Carro}
    (h : ∀ p ∈ m, p.1 ≠ k) : mapInsert m k v = m ++ [(k, v)] := by
  simp [mapInsert, any_key_eq_false h]

theorem lookup_append_self {m : List (String × Carro)} {k : String} {v : Carro}
    (h : ∀ p ∈ m, p.1 ≠ k) : List.lookup k (m ++ [(k, v)]) = some v := by
  induction m with
  | nil => simp [List.lookup]
  | cons q t ih =>
    have hq : q.1 ≠ k := h q (List.mem_cons_self _ _)
    have hb : (k == q.1) = false := by simp; exact fun he => hq he.symm
    simp only [List.cons_append, List.lookup, hb, cond_false]
    exact ih (fun p hp => h p (List.mem_cons_of_mem _ hp))

theorem lookup_replace_self {m : List (String × Carro)} {k : String} {v : Carro}
    (h : m.any (fun p => p.1 == k) = true) :
    List.lookup k (m.map (fun p => if p.1 == k then (k, v) else p)) = some v := by
  induction m with
  | nil => simp at h
  | cons q t ih =>
    simp only [List.map_cons]
    by_cases hq : q.1 = k
    · have hb : (q.1 == k) = true := by simp [hq]
      rw [if_pos hb]
      simp [List.lookup]
    · have hb : ¬ ((q.1 == k) = true) := by simp [hq]
      rw [if_neg hb]
      have hb2 : (k == q.1) = false := by
        simp only [beq_eq_false_iff_ne, ne_eq]
        exact fun he => hq he.symm
      simp only [List.lookup, hb2, cond_false]
      apply ih
      simp only [List.any_cons, Bool.or_eq_true] at h
      rcases h with h1 | h1
      · exact absurd h1 hb
      · exact h1

theorem lookup_mapInsert {m : List (String × Carro)} {k : String} {v : Carro} :
    List.lookup k (mapInsert m k v) = some v := by
  by_cases h : m.any (fun p => p.1 == k) = true
  · simp only [mapInsert, h, if_true]
    exact lookup_replace_self h
  · have h2 : ∀ p ∈ m, p.1 ≠ k := by
      intro p hp he
      apply h
      rw [List.any_eq_true]
      exact ⟨p, hp, by simp [he]⟩
    rw [mapInsert_fresh h2]
    exact lookup_append_self h2

theorem mapInsert_mem {m : List (String × Carro)} {k : String} {v : Carro}
    {p : String × Carro} (h : p ∈ mapInsert m k v) : p ∈ m ∨ p = (k, v) := by
  unfold mapInsert at h
  by_cases hany : m.any (fun q => q.1 == k) = true
  · rw [if_pos hany] at h
    rcases List.mem_map.mp h with ⟨q, hq, hqe⟩
    by_cases hqk : (q.1 == k) = true
    · rw [if_pos hqk] at hqe
      exact Or.inr hqe.symm
    · rw [if_neg hqk] at hqe
      exact Or.inl (hqe ▸ hq)
  · rw [if_neg hany] at h
    rcases List.mem_append.mp h with h1 | h1
    · exact Or.inl h1
    · exact Or.inr (by simpa using h1)

theorem mapErase_mapOf (l : List Carro) (k : String) :
    mapErase (mapOf l) k = mapOf (l.filter (fun x => x.ID != k)) := by
  induction l with
  | nil => rfl
  | cons x t ih =>
    by_cases h : x.ID = k
    · have hb : (x.ID != k) = false := by simp [h]
      simp only [mapOf, List.map_cons, mapErase, List.filter_cons, hb, if_false]
      exact ih
    · have hb : (x.ID != k) = true := by simp [h]
      simp only [mapOf, List.map_cons, mapErase, List.filter_cons, hb, if_true]
      simpa [mapErase, mapOf] using ih

theorem mapOf_append (l : List Carro) (x : Carro) :
    mapOf (l ++ [x]) = mapOf l ++ [(x.ID, x)] := by
  simp [mapOf]

theorem mapOf_replace (l : List Carro) (k : String) (novo : Carro)
    (hid : novo.ID = k) :
    (mapOf l).map (fun p => if p.1 == k then (k, novo) else p) =
      mapOf (l.map (fun old => if old.ID = k then novo else old)) := by
  induction l with
  | nil => rfl
  | cons x t ih =>
    simp only [mapOf, List.map_cons] at ih ⊢
    rw [ih]
    congr 1
    by_cases h : x.ID = k
    · simp [h, hid]
    · simp [h]

theorem lookup_mapOf_mem {l : List Carro} {k : String} {r : Carro}
    (h : List.lookup k (mapOf l) = some r) : r ∈ l ∧ r.ID = k := by
  induction l with
  | nil => simp [mapOf, List.lookup] at h
  | cons x t ih =>
    by_cases hx : k = x.ID
    · have hb : (k == x.ID) = true := by simp [hx]
      simp only [mapOf, List.map_cons, List.lookup, hb, cond_true, Option.some.injEq] at h
      subst h
      exact ⟨List.mem_cons_self _ _, hx.symm⟩
    · have hb : (k == x.ID) = false := by simp [hx]
      simp only [mapOf, List.map_cons, List.lookup, hb, cond_false] at h
      rcases ih h with ⟨h1, h2⟩
      exact ⟨List.mem_cons_of_mem _ h1, h2⟩

theorem lookup_mapOf_self {l : List Carro} {x : Carro}
    (hnd : (l.map Carro.ID).Nodup) (hx : x ∈ l) :
    List.lookup x.ID (mapOf l) = some x := by
  induction l with
  | nil => simp at hx
  | cons y t ih =>
    rcases List.mem_cons.mp hx with rfl | hx2
    · simp [mapOf, List.lookup]
    · have hne : x.ID ≠ y.ID := by
        intro he
        simp only [List.map_cons, List.nodup_cons] at hnd
        apply hnd.1
        rw [← he]
        exact List.mem_map_of_mem _ hx2
      have hb : (x.ID == y.ID) = false := by simp [hne]
      simp only [mapOf, List.map_cons, List.lookup, hb, cond_false]
      exact ih (by simp only [List.map_cons, List.nodup_cons] at hnd; exact hnd.2) hx2

theorem buildMap_go (l : List Carro) :
    ∀ m : List (String × Carro), (l.map Carro.ID).Nodup →
      (∀ x ∈ l, ∀ p ∈ m, p.1 ≠ x.ID) →
      l.foldl (fun m carro => mapInsert m carro.ID carro) m = m ++ mapOf l := by
  induction l with
  | nil => intro m _ _; simp [mapOf]
  | cons x t ih =>
    intro m hnd hdisj
    simp only [List.foldl_cons]
    rw [mapInsert_fresh (hdisj x (List.mem_cons_self _ _))]
    rw [ih (m ++ [(x.ID, x)])
      (by simp only [List.map_cons, List.nodup_cons] at hnd; exact hnd.2)
      (by
        intro y hy p hp
        rcases List.mem_append.mp hp with h1 | h1
        · exact hdisj y (List.mem_cons_of_mem _ hy) p h1
        · have hp2 : p = (x.ID, x) := by simpa using h1
          subst hp2
          simp only [List.map_cons, List.nodup_cons] at hnd
          intro he
          apply hnd.1
          have he2 : x.ID = y.ID := he
          rw [he2]
          exact List.mem_map_of_mem _ hy)]
    simp [mapOf]

theorem buildMap_eq_mapOf {l : List Carro} (hnd : (l.map Carro.ID).Nodup) :
    buildMap l = mapOf l := by
  have := buildMap_go l [] hnd (by simp)
  simpa [buildMap] using this

theorem getD_rebuildGoSlice (l : List Carro) : (rebuildGoSlice l).getD [] = l := by
  unfold rebuildGoSlice
  split
  · simp [*]
  · rfl

theorem add_spec (anoAtual : Int) (c : CadastroCarros) (i : AddInput) :
    AdicionarCarro anoAtual c i =
      if validAdd anoAtual i then
        (SalvarJSON
          { c with carrosMap := mapInsert c.carrosMap (gerarID i.nano) (mkCarro i)
                   carros := some (elems c ++ [mkCarro i]) }, true)
      else (c, false) := by
  unfold AdicionarCarro validAdd
  by_cases h1 : i.marca = ""
  · simp [h1]
  by_cases h2 : i.modelo = ""
  · simp [h1, h2]
  cases hano : i.ano with
  | none => simp [h1, h2, hano]
  | some ano =>
    by_cases ha1 : 0 < ano
    · by_cases ha2 : ano ≤ anoAtual + 1
      · cases hpre : i.preco with
        | none => simp [h1, h2, hano, ha1, ha2, hpre]
        | some preco =>
          by_cases hp : 0 < preco
          · by_cases hpais : i.paisOrigem = "" <;>
              simp [h1, h2, hano, ha1, ha2, hpre, hp, hpais, mkCarro]
          · simp [h1, h2, hano, ha1, ha2, hpre, hp]
      · simp [h1, h2, hano, ha1, ha2]
    · simp [h1, h2, hano, ha1]

theorem atualizaCampos_ID (anoAtual : Int) (carro : Carro) (nm nmod : String)
    (na : Option Int) (nc : String) (np : Option Rat) (npa : String) :
    (atualizaCampos anoAtual carro nm nmod na nc np npa).ID = carro.ID := by
  cases na <;> cases np <;> simp only [atualizaCampos] <;> split_ifs <;> rfl

theorem atualizaCampos_Data (anoAtual : Int) (carro : Carro) (nm nmod : String)
    (na : Option Int) (nc : String) (np : Option Rat) (npa : String) :
    (atualizaCampos anoAtual carro nm nmod na nc np npa).DataCadastro =
      carro.DataCadastro := by
  cases na <;> cases np <;> simp only [atualizaCampos] <;> split_ifs <;> rfl

theorem atualizaCampos_Marca (anoAtual : Int) (carro : Carro) (nm nmod : String)
    (na : Option Int) (nc : String) (np : Option Rat) (npa : String) :
    (atualizaCampos anoAtual carro nm nmod na nc np npa).Marca =
      (if nm = "" then carro.Marca else nm) := by
  cases na <;> cases np <;> simp only [atualizaCampos] <;> split_ifs <;> rfl

theorem atualizaCampos_Modelo (anoAtual : Int) (carro : Carro) (nm nmod : String)
    (na : Option Int) (nc : String) (np : Option Rat) (npa : String) :
    (atualizaCampos anoAtual carro nm nmod na nc np npa).Modelo =
      (if nmod = "" then carro.Modelo else nmod) := by
  cases na <;> cases np <;> simp only [atualizaCampos] <;> split_ifs <;> rfl

theorem atualizaCampos_Ano (anoAtual : Int) (carro : Carro) (nm nmod : String)
    (na : Option Int) (nc : String) (np : Option Rat) (npa : String) :
    (atualizaCampos anoAtual carro nm nmod na nc np npa).Ano =
      (match na with
       | none => carro.Ano
       | some ano => if 0 < ano ∧ ano ≤ anoAtual + 1 then ano else carro.Ano) := by
  cases na <;> cases np <;> simp only [atualizaCampos] <;> split_ifs <;> rfl

theorem atualizaCampos_Cor (anoAtual : Int) (carro : Carro) (nm nmod : String)
    (na : Option Int) (nc : String) (np : Option Rat) (npa : String) :
    (atualizaCampos anoAtual carro nm nmod na nc np npa).Cor =
      (if nc = "" then carro.Cor else nc) := by
  cases na <;> cases np <;> simp only [atualizaCampos] <;> split_ifs <;> rfl

theorem atualizaCampos_Preco (anoAtual : Int) (carro : Carro) (nm nmod : String)
    (na : Option Int) (nc : String) (np : Option Rat) (npa : String) :
    (atualizaCampos anoAtual carro nm nmod na nc np npa).Preco =
      (match np with
       | none => carro.Preco
       | some preco => if 0 < preco then preco else carro.Preco) := by
  cases na <;> cases np <;> simp only [atualizaCampos] <;> split_ifs <;> rfl

theorem atualizaCampos_Pais (anoAtual : Int) (carro : Carro) (nm nmod : String)
    (na : Option Int) (nc : String) (np : Option Rat) (npa : String) :
    (atualizaCampos anoAtual carro nm nmod na nc np npa).PaisOrigem =
      (if npa = "" then carro.PaisOrigem else npa) := by
  cases na <;> cases np <;> simp only [atualizaCampos] <;> split_ifs <;> rfl

theorem mapID_replace {l : List Carro} {id : String} {novo : Carro}
    (hid : novo.ID = id) :
    (l.map (fun old => if old.ID = id then novo else old)).map Carro.ID =
      l.map Carro.ID := by
  induction l with
  | nil => rfl
  | cons x t ih =>
    simp only [List.map_cons, ih]
    congr 1
    by_cases h : x.ID = id
    · simp [h, hid]
    · simp [h]

theorem lookup_mem_pair {m : List (String × Carro)} {k : String} {v : Carro}
    (h : List.lookup k m = some v) : (k, v) ∈ m := by
  induction m with
  | nil => simp [List.lookup] at h
  | cons q t ih =>
    by_cases hq : k = q.1
    · have hb : (k == q.1) = true := by simp [hq]
      simp only [List.lookup, hb, cond_true, Option.some.injEq] at h
      subst h
      rw [hq]
      exact List.mem_cons_self _ _
    · have hb : (k == q.1) = false := by simp [hq]
      simp only [List.lookup, hb, cond_false] at h
      exact List.mem_cons_of_mem _ (ih h)

theorem viewsSync_init (f : Option JDoc) : ViewsSync (initCadastro f) :=
  ⟨rfl, List.nodup_nil⟩

theorem viewsSync_step {anoAtual : Int} {c : CadastroCarros} {op : Op}
    (hs : ViewsSync c) (hok : opOk c op = true) :
    ViewsSync (execOp anoAtual c op) := by
  obtain ⟨hmap, hnd⟩ := hs
  cases op with
  | add i =>
    show ViewsSync (AdicionarCarro anoAtual c i).1
    rw [add_spec]
    by_cases hv : validAdd anoAtual i = true
    · rw [if_pos hv]
      have hfresh : List.lookup (gerarID i.nano) c.carrosMap = none := by
        simpa [opOk] using hok
      have hfresh2 : ∀ p ∈ c.carrosMap, p.1 ≠ gerarID i.nano :=
        lookup_eq_none_iff.mp hfresh
      have hnotin : gerarID i.nano ∉ (elems c).map Carro.ID := by
        intro hin
        rcases List.mem_map.mp hin with ⟨x, hx, hxe⟩
        have hpm : (x.ID, x) ∈ c.carrosMap := by
          rw [hmap]
          exact List.mem_map_of_mem _ hx
        exact hfresh2 (x.ID, x) hpm hxe
      constructor
      · show mapInsert c.carrosMap (gerarID i.nano) (mkCarro i) =
          mapOf (elems c ++ [mkCarro i])
        rw [mapInsert_fresh hfresh2, mapOf_append, hmap]
        rfl
      · show ((elems c ++ [mkCarro i]).map Carro.ID).Nodup
        rw [List.map_append, List.nodup_append]
        refine ⟨hnd, List.nodup_singleton _, ?_⟩
        intro a ha hb
        have hae : a = (mkCarro i).ID := by simpa using hb
        apply hnotin
        have h2 : (mkCarro i).ID ∈ List.map Carro.ID (elems c) := hae ▸ ha
        exact h2
    · rw [if_neg hv]
      exact ⟨hmap, hnd⟩
  | remove id =>
    show ViewsSync (RemoverCarro c id).1
    unfold RemoverCarro
    cases hl : List.lookup id c.carrosMap with
    | none => exact ⟨hmap, hnd⟩
    | some r =>
      constructor
      · show mapErase c.carrosMap id =
          mapOf ((rebuildGoSlice ((elems c).filter
            (fun carro => carro.ID != id))).getD [])
        rw [getD_rebuildGoSlice, hmap, mapErase_mapOf]
      · show ((((rebuildGoSlice ((elems c).filter
            (fun carro => carro.ID != id))).getD [])).map Carro.ID).Nodup
        rw [getD_rebuildGoSlice]
        exact List.Nodup.sublist (List.Sublist.map _ (List.filter_sublist _)) hnd
  | update id nm nmod na nc np npa =>
    show ViewsSync (AtualizarCarro anoAtual c id nm nmod na nc np npa).1
    unfold AtualizarCarro
    cases hl : List.lookup id c.carrosMap with
    | none => exact ⟨hmap, hnd⟩
    | some r =>
      have hl2 : List.lookup id (mapOf (elems c)) = some r := by rw [← hmap]; exact hl
      have hrID : r.ID = id := (lookup_mapOf_mem hl2).2
      have hnovoID : (atualizaCampos anoAtual r nm nmod na nc np npa).ID = id := by
        rw [atualizaCampos_ID]
        exact hrID
      have hany : c.carrosMap.any (fun p => p.1 == id) = true := lookup_some_any hl
      constructor
      · show mapInsert c.carrosMap id (atualizaCampos anoAtual r nm nmod na nc np npa) =
          mapOf ((rebuildGoSlice ((elems c).map (fun old =>
            if old.ID = id then atualizaCampos anoAtual r nm nmod na nc np npa
            else old))).getD [])
        rw [getD_rebuildGoSlice]
        unfold mapInsert
        rw [if_pos hany, hmap]
        exact mapOf_replace _ _ _ hnovoID
      · show ((((rebuildGoSlice ((elems c).map (fun old =>
            if old.ID = id then atualizaCampos anoAtual r nm nmod na nc np npa
            else old))).getD [])).map Carro.ID).Nodup
        rw [getD_rebuildGoSlice, mapID_replace hnovoID]
        exact hnd
  | load =>
    show ViewsSync (CarregarJSON c).1
    unfold CarregarJSON
    cases harq : c.arquivo with
    | none => exact ⟨hmap, hnd⟩
    | some d =>
      cases d with
      | bad => exact ⟨hmap, hnd⟩
      | null => exact ⟨rfl, List.nodup_nil⟩
      | arr l =>
        have hndl : (l.map Carro.ID).Nodup := by
          simp only [opOk, harq] at hok
          simpa using hok
        exact ⟨buildMap_eq_mapOf hndl, hndl⟩

theorem viewsSync_trace {anoAtual : Int} :
    ∀ (ops : List Op) (c : CadastroCarros), ViewsSync c →
      goodTrace anoAtual c ops = true → ViewsSync (execOps anoAtual c ops) := by
  intro ops
  induction ops with
  | nil => intro c hs _; exact hs
  | cons op rest ih =>
    intro c hs hg
    simp only [goodTrace, Bool.and_eq_true] at hg
    exact ih _ (viewsSync_step hs hg.1) hg.2

theorem validCarro_mkCarro {anoAtual : Int} {i : AddInput}
    (hv : validAdd anoAtual i = true) : ValidCarro anoAtual (mkCarro i) := by
  unfold validAdd at hv
  simp only [Bool.and_eq_true, bne_iff_ne, ne_eq] at hv
  obtain ⟨⟨⟨⟨h1, h2⟩, h3⟩, h4⟩, h5⟩ := hv
  cases hano : i.ano with
  | none => rw [hano] at h3; simp at h3
  | some ano =>
    rw [hano] at h3
    simp only [Bool.and_eq_true, decide_eq_true_eq] at h3
    cases hpre : i.preco with
    | none => rw [hpre] at h4; simp at h4
    | some preco =>
      rw [hpre] at h4
      simp only [decide_eq_true_eq] at h4
      refine ⟨h1, h2, h5, ?_, ?_, ?_⟩
      · simpa [mkCarro, hano] using h3.1
      · simpa [mkCarro, hano] using h3.2
      · simpa [mkCarro, hpre] using h4

theorem validCarro_atualizaCampos {anoAtual : Int} {carro : Carro}
    (hc : ValidCarro anoAtual carro) (nm nmod : String) (na : Option Int)
    (nc : String) (np : Option Rat) (npa : String) :
    ValidCarro anoAtual (atualizaCampos anoAtual carro nm nmod na nc np npa) := by
  obtain ⟨h1, h2, h3, h4, h5, h6⟩ := hc
  refine ⟨?_, ?_, ?_, ?_, ?_, ?_⟩
  · rw [atualizaCampos_Marca]
    split_ifs with h
    · exact h1
    · exact h
  · rw [atualizaCampos_Modelo]
    split_ifs with h
    · exact h2
    · exact h
  · rw [atualizaCampos_Pais]
    split_ifs with h
    · exact h3
    · exact h
  · rw [atualizaCampos_Ano]
    cases na with
    | none => exact h4
    | some a =>
      dsimp only
      split_ifs with h
      · exact h.1
      · exact h4
  · rw [atualizaCampos_Ano]
    cases na with
    | none => exact h5
    | some a =>
      dsimp only
      split_ifs with h
      · exact h.2
      · exact h5
  · rw [atualizaCampos_Preco]
    cases np with
    | none => exact h6
    | some p =>
      dsimp only
      split_ifs with h
      · exact h
      · exact h6

theorem validState_step {anoAtual : Int} {c : CadastroCarros} {op : Op}
    (hv : ValidState anoAtual c) (hnl : op.isLoad = false) :
    ValidState anoAtual (execOp anoAtual c op) := by
  obtain ⟨hel, hm⟩ := hv
  cases op with
  | load => simp [Op.isLoad] at hnl
  | add i =>
    show ValidState anoAtual (AdicionarCarro anoAtual c i).1
    rw [add_spec]
    by_cases hva : validAdd anoAtual i = true
    · rw [if_pos hva]
      have hnew := validCarro_mkCarro hva
      constructor
      · show ∀ carro ∈ elems c ++ [mkCarro i], ValidCarro anoAtual carro
        intro carro hcar
        rcases List.mem_append.mp hcar with h | h
        · exact hel carro h
        · have he : carro = mkCarro i := by simpa using h
          exact he ▸ hnew
      · show ∀ p ∈ mapInsert c.carrosMap (gerarID i.nano) (mkCarro i),
          ValidCarro anoAtual p.2
        intro p hp
        rcases mapInsert_mem hp with h | h
        · exact hm p h
        · rw [h]
          exact hnew
    · rw [if_neg hva]
      exact ⟨hel, hm⟩
  | remove id =>
    show ValidState anoAtual (RemoverCarro c id).1
    unfold RemoverCarro
    cases hl : List.lookup id c.carrosMap with
    | none => exact ⟨hel, hm⟩
    | some r =>
      constructor
      · show ∀ carro ∈ (rebuildGoSlice ((elems c).filter
            (fun carro => carro.ID != id))).getD [], ValidCarro anoAtual carro
        rw [getD_rebuildGoSlice]
        intro carro hcar
        exact hel carro (List.mem_of_mem_filter hcar)
      · intro p hp
        exact hm p (List.mem_of_mem_filter hp)
  | update id nm nmod na nc np npa =>
    show ValidState anoAtual (AtualizarCarro anoAtual c id nm nmod na nc np npa).1
    unfold AtualizarCarro
    cases hl : List.lookup id c.carrosMap with
    | none => exact ⟨hel, hm⟩
    | some r =>
      have hr : ValidCarro anoAtual r := hm (id, r) (lookup_mem_pair hl)
      have hnew := validCarro_atualizaCampos hr nm nmod na nc np npa
      constructor
      · show ∀ carro ∈ (rebuildGoSlice ((elems c).map (fun old =>
            if old.ID = id then atualizaCampos anoAtual r nm nmod na nc np npa
            else old))).getD [], ValidCarro anoAtual carro
        rw [getD_rebuildGoSlice]
        intro carro hcar
        rcases List.mem_map.mp hcar with ⟨old, hold, holde⟩
        by_cases h : old.ID = id
        · rw [← holde, if_pos h]
          exact hnew
        · rw [← holde, if_neg h]
          exact hel old hold
      · intro p hp
        rcases mapInsert_mem hp with h | h
        · exact hm p h
        · rw [h]
          exact hnew

theorem validState_trace {anoAtual : Int} :
    ∀ (ops : List Op) (c : CadastroCarros), ValidState anoAtual c →
      ops.all (fun op => !op.isLoad) = true →
      ValidState anoAtual (execOps anoAtual c ops) := by
  intro ops
  induction ops with
  | nil => intro c hs _; exact hs
  | cons op rest ih =>
    intro c hs hg
    simp only [List.all_cons, Bool.and_eq_true, Bool.not_eq_true'] at hg
    exact ih _ (validState_step hs hg.1) hg.2

theorem validState_init (anoAtual : Int) (f : Option JDoc) :
    ValidState anoAtual (initCadastro f) := by
  constructor
  · intro carro hcar
    simp [initCadastro, elems] at hcar
  · intro p hp
    simp [initCadastro] at hp

theorem add_elems_valid {anoAtual : Int} {c : CadastroCarros} {i : AddInput}
    (hv : validAdd anoAtual i = true) :
    elems (AdicionarCarro anoAtual c i).1 = elems c ++ [mkCarro i] := by
  rw [add_spec, if_pos hv]
  rfl

theorem add_state_invalid {anoAtual : Int} {c : CadastroCarros} {i : AddInput}
    (hv : validAdd anoAtual i = false) :
    AdicionarCarro anoAtual c i = (c, false) := by
  rw [add_spec, if_neg (by simp [hv])]

theorem elems_adds (anoAtual : Int) :
    ∀ (inputs : List AddInput) (c : CadastroCarros),
      elems (execOps anoAtual c (inputs.map Op.add)) =
        elems c ++ (inputs.filter (validAdd anoAtual)).map mkCarro := by
  intro inputs
  induction inputs with
  | nil => intro c; simp [execOps]
  | cons i rest ih =>
    intro c
    show elems (execOps anoAtual ((AdicionarCarro anoAtual c i).1) (rest.map Op.add)) = _
    rw [ih]
    by_cases hv : validAdd anoAtual i = true
    · rw [add_elems_valid hv, List.filter_cons, if_pos hv]
      simp
    · have hvf : validAdd anoAtual i = false := by simpa using hv
      rw [add_state_invalid hvf, List.filter_cons, if_neg (by simp [hvf])]

theorem mapErase_length {m : List (String × Carro)} {k : String} {v : Carro}
    (h : List.lookup k m = some v) (hnd : (m.map Prod.fst).Nodup) :
    (mapErase m k).length + 1 = m.length := by
  induction m with
  | nil => simp [List.lookup] at h
  | cons q t ih =>
    simp only [List.map_cons, List.nodup_cons] at hnd
    by_cases hq : k = q.1
    · have hkeep : mapErase t k = t := by
        unfold mapErase
        apply List.filter_eq_self.mpr
        intro p hp
        simp only [bne_iff_ne, ne_eq, decide_eq_true_eq]
        intro he
        apply hnd.1
        rw [← hq, ← he]
        exact List.mem_map_of_mem _ hp
      have hqb : ¬ ((q.1 != k) = true) := by simp [hq.symm]
      unfold mapErase
      rw [List.filter_cons, if_neg hqb]
      show (mapErase t k).length + 1 = t.length + 1
      rw [hkeep]
    · have hb : (k == q.1) = false := by simp [hq]
      simp only [List.lookup, hb, cond_false] at h
      have hqb : (q.1 != k) = true := by
        simp only [bne_iff_ne, ne_eq]
        exact fun he => hq he.symm
      unfold mapErase
      rw [List.filter_cons, if_pos hqb]
      simp only [List.length_cons]
      have := ih h hnd.2
      unfold mapErase at this
      omega

/-- C1 counterexample: the claim fails as stated.  Loading a backing file
that holds two different records with the same identifier (`CarregarJSON`
performs no duplicate check) leaves the first record in the ordered slice
while the lookup map binds its identifier to the second record, so the two
views disagree. -/
theorem c1_counterexample :
    (⟨"car_1", "Toyota", "Corolla", 2020, "prata", 1, "Japao", "2024-01-01"⟩ : Carro) ∈
      elems (execOps 2025 (initCadastro (some (JDoc.arr
        [⟨"car_1", "Toyota", "Corolla", 2020, "prata", 1, "Japao", "2024-01-01"⟩,
         ⟨"car_1", "BMW", "X5", 2021, "preto", 2, "Alemanha", "2024-01-02"⟩])))
        [Op.load]) ∧
    List.lookup "car_1" (execOps 2025 (initCadastro (some (JDoc.arr
        [⟨"car_1", "Toyota", "Corolla", 2020, "prata", 1, "Japao", "2024-01-01"⟩,
         ⟨"car_1", "BMW", "X5", 2021, "preto", 2, "Alemanha", "2024-01-02"⟩])))
        [Op.load]).carrosMap =
      some ⟨"car_1", "BMW", "X5", 2021, "preto", 2, "Alemanha", "2024-01-02"⟩ ∧
    (⟨"car_1", "BMW", "X5", 2021, "preto", 2, "Alemanha", "2024-01-02"⟩ : Carro) ≠
      ⟨"car_1", "Toyota", "Corolla", 2020, "prata", 1, "Japao", "2024-01-01"⟩ := by
  decide

/-- C1 (amended): provided every Create draws an identifier that is not
already a key of the map and every loaded file content has pairwise-distinct
identifiers (the `goodTrace` discipline), then after any sequence of
Create, Update, Delete and Load operations the two views agree: every map
entry's record occurs exactly once in the ordered slice, and every slice
record's identifier is bound to that record in the map. -/
theorem c1_views_agree (anoAtual : Int) (f : Option JDoc) (ops : List Op)
    (h : goodTrace anoAtual (initCadastro f) ops = true) :
    (∀ p ∈ (execOps anoAtual (initCadastro f) ops).carrosMap,
        (elems (execOps anoAtual (initCadastro f) ops)).count p.2 = 1) ∧
    ∀ carro ∈ elems (execOps anoAtual (initCadastro f) ops),
      List.lookup carro.ID (execOps anoAtual (initCadastro f) ops).carrosMap =
        some carro := by
  obtain ⟨hmap, hnd⟩ := viewsSync_trace ops (initCadastro f) (viewsSync_init f) h
  constructor
  · intro p hp
    rw [hmap] at hp
    rcases List.mem_map.mp hp with ⟨x, hx, rfl⟩
    exact List.count_eq_one_of_mem (List.Nodup.of_map _ hnd) hx
  · intro carro hcar
    rw [hmap]
    exact lookup_mapOf_self hnd hcar

theorem c1_views_agree_witness :
    goodTrace 2025 (initCadastro none)
      [Op.add ⟨"Toyota", "Corolla", some 2020, "", some 1, "Japao", 7, "2024-01-01"⟩] =
      true ∧
    ((∀ p ∈ (execOps 2025 (initCadastro none)
        [Op.add ⟨"Toyota", "Corolla", some 2020, "", some 1, "Japao", 7, "2024-01-01"⟩]).carrosMap,
        (elems (execOps 2025 (initCadastro none)
          [Op.add ⟨"Toyota", "Corolla", some 2020, "", some 1, "Japao", 7, "2024-01-01"⟩])).count p.2 = 1) ∧
      ∀ carro ∈ elems (execOps 2025 (initCadastro none)
          [Op.add ⟨"Toyota", "Corolla", some 2020, "", some 1, "Japao", 7, "2024-01-01"⟩]),
        List.lookup carro.ID (execOps 2025 (initCadastro none)
          [Op.add ⟨"Toyota", "Corolla", some 2020, "", some 1, "Japao", 7, "2024-01-01"⟩]).carrosMap =
          some carro) :=
  ⟨by decide,
    c1_views_agree 2025 none
      [Op.add ⟨"Toyota", "Corolla", some 2020, "", some 1, "Japao", 7, "2024-01-01"⟩]
      (by decide)⟩

/-- C2: for create-only operation sequences from the empty registry whose
timestamp readings are pairwise distinct (successive `UnixNano` calls), the
listing length equals the number of validation-passing creates, and all
identifiers in the collection are pairwise distinct. -/
theorem c2_create_count_unique (anoAtual : Int) (inputs : List AddInput)
    (h : (inputs.map AddInput.nano).Nodup) :
    (elems (execOps anoAtual (initCadastro none) (inputs.map Op.add))).length =
      (inputs.filter (validAdd anoAtual)).length ∧
    ((elems (execOps anoAtual (initCadastro none) (inputs.map Op.add))).map
      Carro.ID).Nodup := by
  rw [elems_adds]
  have hinit : elems (initCadastro none) = [] := rfl
  rw [hinit, List.nil_append]
  constructor
  · simp
  · have hmm : ((inputs.filter (validAdd anoAtual)).map mkCarro).map Carro.ID =
        ((inputs.filter (validAdd anoAtual)).map AddInput.nano).map gerarID := by
      simp only [List.map_map]
      rfl
    rw [hmm]
    exact (List.Nodup.sublist (List.Sublist.map _ (List.filter_sublist _)) h).map
      (fun a b hab => gerarID_inj hab)

theorem c2_create_count_unique_witness :
    (([⟨"Toyota", "Corolla", some 2020, "", some 1, "Japao", 1, "2024-01-01"⟩,
       ⟨"", "X5", some 2021, "", some 2, "Alemanha", 2, "2024-01-02"⟩,
       ⟨"BMW", "X5", some 2021, "preto", some 2, "Alemanha", 3, "2024-01-02"⟩] :
        List AddInput).map AddInput.nano).Nodup ∧
    ((elems (execOps 2025 (initCadastro none)
        (([⟨"Toyota", "Corolla", some 2020, "", some 1, "Japao", 1, "2024-01-01"⟩,
           ⟨"", "X5", some 2021, "", some 2, "Alemanha", 2, "2024-01-02"⟩,
           ⟨"BMW", "X5", some 2021, "preto", some 2, "Alemanha", 3, "2024-01-02"⟩] :
            List AddInput).map Op.add))).length =
      (([⟨"Toyota", "Corolla", some 2020, "", some 1, "Japao", 1, "2024-01-01"⟩,
         ⟨"", "X5", some 2021, "", some 2, "Alemanha", 2, "2024-01-02"⟩,
         ⟨"BMW", "X5", some 2021, "preto", some 2, "Alemanha", 3, "2024-01-02"⟩] :
          List AddInput).filter (validAdd 2025)).length ∧
    ((elems (execOps 2025 (initCadastro none)
        (([⟨"Toyota", "Corolla", some 2020, "", some 1, "Japao", 1, "2024-01-01"⟩,
           ⟨"", "X5", some 2021, "", some 2, "Alemanha", 2, "2024-01-02"⟩,
           ⟨"BMW", "X5", some 2021, "preto", some 2, "Alemanha", 3, "2024-01-02"⟩] :
            List AddInput).map Op.add))).map Carro.ID).Nodup) :=
  ⟨by decide,
    c2_create_count_unique 2025
      [⟨"Toyota", "Corolla", some 2020, "", some 1, "Japao", 1, "2024-01-01"⟩,
       ⟨"", "X5", some 2021, "", some 2, "Alemanha", 2, "2024-01-02"⟩,
       ⟨"BMW", "X5", some 2021, "preto", some 2, "Alemanha", 3, "2024-01-02"⟩]
      (by decide)⟩

/-- C3 counterexample: the claim fails as stated.  `CarregarJSON` performs
no field validation, so Load (an operation the claim ranges over) can bring
into the registry a record with empty make, model and country, year 0 and
price 0. -/
theorem c3_counterexample :
    (⟨"car_9", "", "", 0, "", 0, "", ""⟩ : Carro) ∈
      elems (execOps 2025 (initCadastro (some (JDoc.arr
        [⟨"car_9", "", "", 0, "", 0, "", ""⟩]))) [Op.load]) ∧
    (⟨"car_9", "", "", 0, "", 0, "", ""⟩ : Carro).Marca = "" ∧
    (⟨"car_9", "", "", 0, "", 0, "", ""⟩ : Carro).Ano = 0 ∧
    (⟨"car_9", "", "", 0, "", 0, "", ""⟩ : Carro).Preco = 0 := by
  decide

/-- C3 (amended): for every record reached by any sequence of Create,
Update and Delete operations from the empty registry (Load excluded: it
performs no validation and can introduce arbitrary records from the file),
make, model and country of origin are non-empty, the year is positive and
at most currentYear+1, and the price is strictly positive. -/
theorem c3_field_invariants (anoAtual : Int) (f : Option JDoc) (ops : List Op)
    (h : ops.all (fun op => !op.isLoad) = true) :
    ∀ carro ∈ elems (execOps anoAtual (initCadastro f) ops),
      carro.Marca ≠ "" ∧ carro.Modelo ≠ "" ∧ carro.PaisOrigem ≠ "" ∧
        0 < carro.Ano ∧ carro.Ano ≤ anoAtual + 1 ∧ 0 < carro.Preco := by
  intro carro hcar
  exact (validState_trace ops (initCadastro f) (validState_init anoAtual f) h).1
    carro hcar

theorem c3_field_invariants_witness :
    ([Op.add ⟨"Toyota", "Corolla", some 2020, "", some 1, "Japao", 1, "2024-01-01"⟩,
      Op.update "car_1" "Honda" "" none "" none ""].all (fun op => !op.isLoad)) = true ∧
    (∀ carro ∈ elems (execOps 2025 (initCadastro none)
        [Op.add ⟨"Toyota", "Corolla", some 2020, "", some 1, "Japao", 1, "2024-01-01"⟩,
         Op.update "car_1" "Honda" "" none "" none ""]),
      carro.Marca ≠ "" ∧ carro.Modelo ≠ "" ∧ carro.PaisOrigem ≠ "" ∧
        0 < carro.Ano ∧ carro.Ano ≤ 2025 + 1 ∧ 0 < carro.Preco) :=
  ⟨by decide,
    c3_field_invariants 2025 none
      [Op.add ⟨"Toyota", "Corolla", some 2020, "", some 1, "Japao", 1, "2024-01-01"⟩,
       Op.update "car_1" "Honda" "" none "" none ""]
      (by decide)⟩

/-- C4: Save followed by Load on a fresh registry pointed at the
just-written file succeeds and reproduces the ordered sequence exactly —
the very same records field for field, in the same order (even the
nil-versus-non-nil slice shape is preserved) — with the lookup index rebuilt
from the loaded records; when identifiers are duplicate-free every record is
again reachable under its own identifier. -/
theorem c4_save_load_roundtrip (c : CadastroCarros) :
    (CarregarJSON
      { carrosMap := [], carros := some [],
        arquivo := (SalvarJSON c).arquivo }).2 = true ∧
    (CarregarJSON
      { carrosMap := [], carros := some [],
        arquivo := (SalvarJSON c).arquivo }).1.carros = c.carros ∧
    (CarregarJSON
      { carrosMap := [], carros := some [],
        arquivo := (SalvarJSON c).arquivo }).1.carrosMap = buildMap (elems c) ∧
    (((elems c).map Carro.ID).Nodup →
      ∀ carro ∈ elems c,
        List.lookup carro.ID (CarregarJSON
      { carrosMap := [], carros := some [],
          arquivo := (SalvarJSON c).arquivo }).1.carrosMap = some carro) := by
  cases hc : c.carros with
  | none =>
    refine ⟨?_, ?_, ?_, ?_⟩ <;>
      simp [SalvarJSON, marshalJSON, hc, CarregarJSON, elems, buildMap]
  | some l =>
    have harq : (SalvarJSON c).arquivo = some (JDoc.arr l) := by
      simp [SalvarJSON, marshalJSON, hc]
    have hel : elems c = l := by simp [elems, hc]
    refine ⟨?_, ?_, ?_, ?_⟩
    · simp [CarregarJSON, harq]
    · simp [CarregarJSON, harq, hc]
    · simp [CarregarJSON, harq, hel]
    · intro hnd carro hcar
      rw [hel] at hnd hcar
      simp only [CarregarJSON, harq]
      rw [buildMap_eq_mapOf hnd]
      exact lookup_mapOf_self hnd hcar

theorem c4_save_load_roundtrip_witness :
    ((elems (⟨[("car_1", ⟨"car_1", "t", "c", 2020, "", 1, "j", "d"⟩)],
        some [⟨"car_1", "t", "c", 2020, "", 1, "j", "d"⟩], none⟩ :
        CadastroCarros)).map Carro.ID).Nodup ∧
    (CarregarJSON
      { carrosMap := [], carros := some [],
        arquivo := (SalvarJSON (⟨[("car_1", ⟨"car_1", "t", "c", 2020, "", 1, "j", "d"⟩)],
          some [⟨"car_1", "t", "c", 2020, "", 1, "j", "d"⟩], none⟩ :
          CadastroCarros)).arquivo }).2 = true ∧
    (CarregarJSON
      { carrosMap := [], carros := some [],
        arquivo := (SalvarJSON (⟨[("car_1", ⟨"car_1", "t", "c", 2020, "", 1, "j", "d"⟩)],
          some [⟨"car_1", "t", "c", 2020, "", 1, "j", "d"⟩], none⟩ :
          CadastroCarros)).arquivo }).1.carros =
      (⟨[("car_1", ⟨"car_1", "t", "c", 2020, "", 1, "j", "d"⟩)],
        some [⟨"car_1", "t", "c", 2020, "", 1, "j", "d"⟩], none⟩ :
        CadastroCarros).carros ∧
    (CarregarJSON
      { carrosMap := [], carros := some [],
        arquivo := (SalvarJSON (⟨[("car_1", ⟨"car_1", "t", "c", 2020, "", 1, "j", "d"⟩)],
          some [⟨"car_1", "t", "c", 2020, "", 1, "j", "d"⟩], none⟩ :
          CadastroCarros)).arquivo }).1.carrosMap =
      buildMap (elems (⟨[("car_1", ⟨"car_1", "t", "c", 2020, "", 1, "j", "d"⟩)],
        some [⟨"car_1", "t", "c", 2020, "", 1, "j", "d"⟩], none⟩ : CadastroCarros)) ∧
    ∀ carro ∈ elems (⟨[("car_1", ⟨"car_1", "t", "c", 2020, "", 1, "j", "d"⟩)],
        some [⟨"car_1", "t", "c", 2020, "", 1, "j", "d"⟩], none⟩ : CadastroCarros),
      List.lookup carro.ID (CarregarJSON
      { carrosMap := [], carros := some [],
        arquivo := (SalvarJSON (⟨[("car_1", ⟨"car_1", "t", "c", 2020, "", 1, "j", "d"⟩)],
          some [⟨"car_1", "t", "c", 2020, "", 1, "j", "d"⟩], none⟩ :
          CadastroCarros)).arquivo }).1.carrosMap = some carro :=
  ⟨by decide,
    (c4_save_load_roundtrip _).1,
    (c4_save_load_roundtrip _).2.1,
    (c4_save_load_roundtrip _).2.2.1,
    (c4_save_load_roundtrip
      (⟨[("car_1", ⟨"car_1", "t", "c", 2020, "", 1, "j", "d"⟩)],
        some [⟨"car_1", "t", "c", 2020, "", 1, "j", "d"⟩], none⟩ :
        CadastroCarros)).2.2.2 (by decide)⟩

/-- C5: updating an existing record writes back the record obtained from the
stored one by the per-field rule — a non-blank (and, for year and price,
in-range) supplied value replaces exactly its own field; a blank/absent or
invalid value leaves that field at its current value; the identifier and the
registration date are never changed — and substitutes it at exactly the
slice positions carrying the identifier. -/
theorem c5_update_frame (anoAtual : Int) (c : CadastroCarros) (id : String)
    (r : Carro) (h : List.lookup id c.carrosMap = some r) (nm nmod : String)
    (na : Option Int) (nc : String) (np : Option Rat) (npa : String) :
    (AtualizarCarro anoAtual c id nm nmod na nc np npa).2 = true ∧
    List.lookup id (AtualizarCarro anoAtual c id nm nmod na nc np npa).1.carrosMap =
      some (atualizaCampos anoAtual r nm nmod na nc np npa) ∧
    elems (AtualizarCarro anoAtual c id nm nmod na nc np npa).1 =
      (elems c).map (fun old =>
        if old.ID = id then atualizaCampos anoAtual r nm nmod na nc np npa
        else old) ∧
    (atualizaCampos anoAtual r nm nmod na nc np npa).ID = r.ID ∧
    (atualizaCampos anoAtual r nm nmod na nc np npa).DataCadastro = r.DataCadastro ∧
    (nm = "" → (atualizaCampos anoAtual r nm nmod na nc np npa).Marca = r.Marca) ∧
    (nm ≠ "" → (atualizaCampos anoAtual r nm nmod na nc np npa).Marca = nm) ∧
    (nmod = "" → (atualizaCampos anoAtual r nm nmod na nc np npa).Modelo = r.Modelo) ∧
    (nmod ≠ "" → (atualizaCampos anoAtual r nm nmod na nc np npa).Modelo = nmod) ∧
    (na = none → (atualizaCampos anoAtual r nm nmod na nc np npa).Ano = r.Ano) ∧
    (∀ a, na = some a → 0 < a → a ≤ anoAtual + 1 →
      (atualizaCampos anoAtual r nm nmod na nc np npa).Ano = a) ∧
    (∀ a, na = some a → ¬ (0 < a ∧ a ≤ anoAtual + 1) →
      (atualizaCampos anoAtual r nm nmod na nc np npa).Ano = r.Ano) ∧
    (nc = "" → (atualizaCampos anoAtual r nm nmod na nc np npa).Cor = r.Cor) ∧
    (nc ≠ "" → (atualizaCampos anoAtual r nm nmod na nc np npa).Cor = nc) ∧
    (np = none → (atualizaCampos anoAtual r nm nmod na nc np npa).Preco = r.Preco) ∧
    (∀ p, np = some p → 0 < p →
      (atualizaCampos anoAtual r nm nmod na nc np npa).Preco = p) ∧
    (∀ p, np = some p → ¬ 0 < p →
      (atualizaCampos anoAtual r nm nmod na nc np npa).Preco = r.Preco) ∧
    (npa = "" →
      (atualizaCampos anoAtual r nm nmod na nc np npa).PaisOrigem = r.PaisOrigem) ∧
    (npa ≠ "" → (atualizaCampos anoAtual r nm nmod na nc np npa).PaisOrigem = npa) := by
  have hred : AtualizarCarro anoAtual c id nm nmod na nc np npa =
      (SalvarJSON { c with
        carrosMap := mapInsert c.carrosMap id
          (atualizaCampos anoAtual r nm nmod na nc np npa)
        carros := rebuildGoSlice ((elems c).map (fun old =>
          if old.ID = id then atualizaCampos anoAtual r nm nmod na nc np npa
          else old)) }, true) := by
    unfold AtualizarCarro
    rw [h]
  refine ⟨by rw [hred], ?_, ?_,
    atualizaCampos_ID _ _ _ _ _ _ _ _, atualizaCampos_Data _ _ _ _ _ _ _ _,
    ?_, ?_, ?_, ?_, ?_, ?_, ?_, ?_, ?_, ?_, ?_, ?_, ?_, ?_⟩
  · rw [hred]
    exact lookup_mapInsert
  · rw [hred]
    exact getD_rebuildGoSlice _
  · intro hnm
    rw [atualizaCampos_Marca, if_pos hnm]
  · intro hnm
    rw [atualizaCampos_Marca, if_neg hnm]
  · intro hnmod
    rw [atualizaCampos_Modelo, if_pos hnmod]
  · intro hnmod
    rw [atualizaCampos_Modelo, if_neg hnmod]
  · intro hna
    rw [atualizaCampos_Ano, hna]
  · intro a hna h1 h2
    rw [atualizaCampos_Ano, hna]
    dsimp only
    rw [if_pos ⟨h1, h2⟩]
  · intro a hna hrange
    rw [atualizaCampos_Ano, hna]
    dsimp only
    rw [if_neg hrange]
  · intro hnc
    rw [atualizaCampos_Cor, if_pos hnc]
  · intro hnc
    rw [atualizaCampos_Cor, if_neg hnc]
  · intro hnp
    rw [atualizaCampos_Preco, hnp]
  · intro p hnp hp
    rw [atualizaCampos_Preco, hnp]
    dsimp only
    rw [if_pos hp]
  · intro p hnp hp
    rw [atualizaCampos_Preco, hnp]
    dsimp only
    rw [if_neg hp]
  · intro hnpa
    rw [atualizaCampos_Pais, if_pos hnpa]
  · intro hnpa
    rw [atualizaCampos_Pais, if_neg hnpa]

theorem c5_update_frame_witness :
    List.lookup "car_1" (⟨[("car_1", ⟨"car_1", "t", "c", 2020, "", 1, "j", "d"⟩)], some [⟨"car_1", "t", "c", 2020, "", 1, "j", "d"⟩], none⟩ : CadastroCarros).carrosMap = some ⟨"car_1", "t", "c", 2020, "", 1, "j", "d"⟩ ∧
    ((AtualizarCarro 2025 (⟨[("car_1", ⟨"car_1", "t", "c", 2020, "", 1, "j", "d"⟩)], some [⟨"car_1", "t", "c", 2020, "", 1, "j", "d"⟩], none⟩ : CadastroCarros) "car_1" "h" "" none "" none "").2 = true ∧
    List.lookup "car_1" (AtualizarCarro 2025 (⟨[("car_1", ⟨"car_1", "t", "c", 2020, "", 1, "j", "d"⟩)], some [⟨"car_1", "t", "c", 2020, "", 1, "j", "d"⟩], none⟩ : CadastroCarros) "car_1" "h" "" none "" none "").1.carrosMap =
      some (atualizaCampos 2025 ⟨"car_1", "t", "c", 2020, "", 1, "j", "d"⟩ "h" "" none "" none "") ∧
    elems (AtualizarCarro 2025 (⟨[("car_1", ⟨"car_1", "t", "c", 2020, "", 1, "j", "d"⟩)], some [⟨"car_1", "t", "c", 2020, "", 1, "j", "d"⟩], none⟩ : CadastroCarros) "car_1" "h" "" none "" none "").1 =
      (elems (⟨[("car_1", ⟨"car_1", "t", "c", 2020, "", 1, "j", "d"⟩)], some [⟨"car_1", "t", "c", 2020, "", 1, "j", "d"⟩], none⟩ : CadastroCarros)).map (fun old =>
        if old.ID = "car_1" then atualizaCampos 2025 ⟨"car_1", "t", "c", 2020, "", 1, "j", "d"⟩ "h" "" none "" none ""
        else old) ∧
    (atualizaCampos 2025 ⟨"car_1", "t", "c", 2020, "", 1, "j", "d"⟩ "h" "" none "" none "").ID = (⟨"car_1", "t", "c", 2020, "", 1, "j", "d"⟩ : Carro).ID ∧
    (atualizaCampos 2025 ⟨"car_1", "t", "c", 2020, "", 1, "j", "d"⟩ "h" "" none "" none "").DataCadastro = (⟨"car_1", "t", "c", 2020, "", 1, "j", "d"⟩ : Carro).DataCadastro ∧
    ("h" = "" → (atualizaCampos 2025 ⟨"car_1", "t", "c", 2020, "", 1, "j", "d"⟩ "h" "" none "" none "").Marca = (⟨"car_1", "t", "c", 2020, "", 1, "j", "d"⟩ : Carro).Marca) ∧
    ("h" ≠ "" → (atualizaCampos 2025 ⟨"car_1", "t", "c", 2020, "", 1, "j", "d"⟩ "h" "" none "" none "").Marca = "h") ∧
    ("" = "" → (atualizaCampos 2025 ⟨"car_1", "t", "c", 2020, "", 1, "j", "d"⟩ "h" "" none "" none "").Modelo = (⟨"car_1", "t", "c", 2020, "", 1, "j", "d"⟩ : Carro).Modelo) ∧
    ("" ≠ "" → (atualizaCampos 2025 ⟨"car_1", "t", "c", 2020, "", 1, "j", "d"⟩ "h" "" none "" none "").Modelo = "") ∧
    ((none : Option Int) = none → (atualizaCampos 2025 ⟨"car_1", "t", "c", 2020, "", 1, "j", "d"⟩ "h" "" none "" none "").Ano = (⟨"car_1", "t", "c", 2020, "", 1, "j", "d"⟩ : Carro).Ano) ∧
    (∀ a, (none : Option Int) = some a → 0 < a → a ≤ 2025 + 1 →
      (atualizaCampos 2025 ⟨"car_1", "t", "c", 2020, "", 1, "j", "d"⟩ "h" "" none "" none "").Ano = a) ∧
    (∀ a, (none : Option Int) = some a → ¬ (0 < a ∧ a ≤ 2025 + 1) →
      (atualizaCampos 2025 ⟨"car_1", "t", "c", 2020, "", 1, "j", "d"⟩ "h" "" none "" none "").Ano = (⟨"car_1", "t", "c", 2020, "", 1, "j", "d"⟩ : Carro).Ano) ∧
    ("" = "" → (atualizaCampos 2025 ⟨"car_1", "t", "c", 2020, "", 1, "j", "d"⟩ "h" "" none "" none "").Cor = (⟨"car_1", "t", "c", 2020, "", 1, "j", "d"⟩ : Carro).Cor) ∧
    ("" ≠ "" → (atualizaCampos 2025 ⟨"car_1", "t", "c", 2020, "", 1, "j", "d"⟩ "h" "" none "" none "").Cor = "") ∧
    ((none : Option Rat) = none → (atualizaCampos 2025 ⟨"car_1", "t", "c", 2020, "", 1, "j", "d"⟩ "h" "" none "" none "").Preco = (⟨"car_1", "t", "c", 2020, "", 1, "j", "d"⟩ : Carro).Preco) ∧
    (∀ p, (none : Option Rat) = some p → 0 < p →
      (atualizaCampos 2025 ⟨"car_1", "t", "c", 2020, "", 1, "j", "d"⟩ "h" "" none "" none "").Preco = p) ∧
    (∀ p, (none : Option Rat) = some p → ¬ 0 < p →
      (atualizaCampos 2025 ⟨"car_1", "t", "c", 2020, "", 1, "j", "d"⟩ "h" "" none "" none "").Preco = (⟨"car_1", "t", "c", 2020, "", 1, "j", "d"⟩ : Carro).Preco) ∧
    ("" = "" → (atualizaCampos 2025 ⟨"car_1", "t", "c", 2020, "", 1, "j", "d"⟩ "h" "" none "" none "").PaisOrigem = (⟨"car_1", "t", "c", 2020, "", 1, "j", "d"⟩ : Carro).PaisOrigem) ∧
    ("" ≠ "" → (atualizaCampos 2025 ⟨"car_1", "t", "c", 2020, "", 1, "j", "d"⟩ "h" "" none "" none "").PaisOrigem = "")) :=
  ⟨by decide,
    c5_update_frame 2025 (⟨[("car_1", ⟨"car_1", "t", "c", 2020, "", 1, "j", "d"⟩)], some [⟨"car_1", "t", "c", 2020, "", 1, "j", "d"⟩], none⟩ : CadastroCarros) "car_1"
      ⟨"car_1", "t", "c", 2020, "", 1, "j", "d"⟩ (by decide) "h" "" none "" none ""⟩

/-- C6: for an identifier absent from the lookup map, Get finds nothing, and
Delete and Update report not-found with the registry state — map, ordered
slice and backing file alike — returned exactly unchanged (each operation
checks existence before touching anything or prompting for input). -/
theorem c6_notfound_noop (c : CadastroCarros) (id : String)
    (h : List.lookup id c.carrosMap = none) :
    BuscarCarro c id = none ∧
    RemoverCarro c id = (c, false) ∧
    ∀ (anoAtual : Int) (nm nmod : String) (na : Option Int) (nc : String)
      (np : Option Rat) (npa : String),
      AtualizarCarro anoAtual c id nm nmod na nc np npa = (c, false) := by
  refine ⟨h, ?_, ?_⟩
  · unfold RemoverCarro
    rw [h]
  · intro anoAtual nm nmod na nc np npa
    unfold AtualizarCarro
    rw [h]

theorem c6_notfound_noop_witness :
    List.lookup "car_1" (initCadastro none).carrosMap = none ∧
    (BuscarCarro (initCadastro none) "car_1" = none ∧
    RemoverCarro (initCadastro none) "car_1" = (initCadastro none, false) ∧
    ∀ (anoAtual : Int) (nm nmod : String) (na : Option Int) (nc : String)
      (np : Option Rat) (npa : String),
      AtualizarCarro anoAtual (initCadastro none) "car_1" nm nmod na nc np npa =
        (initCadastro none, false)) :=
  ⟨by decide, c6_notfound_noop (initCadastro none) "car_1" (by decide)⟩

/-- C7: a create whose year is 0 or currentYear+2, or whose price is 0 or
negative, fails validation and leaves the registry — both views and the
backing file — exactly as it was: no record, no identifier drawn, no save
performed. -/
theorem c7_create_invalid_rejected (anoAtual : Int) (c : CadastroCarros)
    (i : AddInput)
    (h : i.ano = some 0 ∨ i.ano = some (anoAtual + 2) ∨ i.preco = some 0 ∨
      ∃ p, i.preco = some p ∧ p < 0) :
    AdicionarCarro anoAtual c i = (c, false) := by
  have hv : ¬ (validAdd anoAtual i = true) := by
    intro hvt
    unfold validAdd at hvt
    simp only [Bool.and_eq_true, bne_iff_ne, ne_eq] at hvt
    obtain ⟨⟨⟨⟨h1, h2⟩, h3⟩, h4⟩, h5⟩ := hvt
    rcases h with h | h | h | ⟨p, hp, hneg⟩
    · rw [h] at h3
      simp only [Bool.and_eq_true, decide_eq_true_eq] at h3
      exact absurd h3.1 (by omega)
    · rw [h] at h3
      simp only [Bool.and_eq_true, decide_eq_true_eq] at h3
      exact absurd h3.2 (by omega)
    · rw [h] at h4
      simp only [decide_eq_true_eq] at h4
      exact absurd h4 (lt_irrefl 0)
    · rw [hp] at h4
      simp only [decide_eq_true_eq] at h4
      exact absurd h4 (not_lt.mpr hneg.le)
  rw [add_spec, if_neg hv]

theorem c7_create_invalid_rejected_witness :
    ((⟨"t", "c", some 0, "", some 1, "j", 1, "d"⟩ : AddInput).ano = some 0 ∨
      (⟨"t", "c", some 0, "", some 1, "j", 1, "d"⟩ : AddInput).ano =
        some (2025 + 2) ∨
      (⟨"t", "c", some 0, "", some 1, "j", 1, "d"⟩ : AddInput).preco = some 0 ∨
      ∃ p, (⟨"t", "c", some 0, "", some 1, "j", 1, "d"⟩ : AddInput).preco =
        some p ∧ p < 0) ∧
    AdicionarCarro 2025 (initCadastro none)
      ⟨"t", "c", some 0, "", some 1, "j", 1, "d"⟩ = (initCadastro none, false) :=
  ⟨Or.inl (by decide),
    c7_create_invalid_rejected 2025 (initCadastro none)
      ⟨"t", "c", some 0, "", some 1, "j", 1, "d"⟩ (Or.inl (by decide))⟩

/-- C8 counterexample: the claim fails as stated.  After creating one record
and then deleting it, the slice rebuilt by `RemoverCarro` (declared
`var novosCarros []Carro`, never appended to) is the nil slice, and
`json.MarshalIndent` writes `null` — not a JSON array — to the backing
file. -/
theorem c8_counterexample :
    (execOps 2025 (initCadastro none)
      [Op.add ⟨"Toyota", "Corolla", some 2020, "", some 1, "Japao", 1, "2024-01-01"⟩,
       Op.remove "car_1"]).arquivo = some JDoc.null ∧
    ehArray JDoc.null = false := by
  decide

/-- C8 (amended): Save writes the ordered sequence to the backing file —
fully overwriting prior content, with the serializer's stable field order
and two-space indentation — as a JSON array whenever the in-memory slice is
non-nil; when the slice is nil (as after a Delete that removed the last
remaining record) it writes `null` instead of an array. -/
theorem c8_save_serializes (c : CadastroCarros) :
    ((SalvarJSON c).arquivo = some (JDoc.arr (elems c)) ∧
      c.carros = some (elems c)) ∨
    ((SalvarJSON c).arquivo = some JDoc.null ∧ c.carros = none) := by
  cases hc : c.carros with
  | none =>
    right
    exact ⟨by simp [SalvarJSON, marshalJSON, hc], rfl⟩
  | some l =>
    left
    constructor
    · simp [SalvarJSON, marshalJSON, hc, elems]
    · simp [elems, hc]

/-- C9: deleting a present identifier reports success, removes from the
ordered slice every record carrying that identifier (not just the first
occurrence), and removes exactly one entry from the lookup map (whose keys
are unique, as Go map keys are). -/
theorem c9_delete_all_occurrences (c : CadastroCarros) (id : String) (r : Carro)
    (h : List.lookup id c.carrosMap = some r)
    (hnd : (c.carrosMap.map Prod.fst).Nodup) :
    (RemoverCarro c id).2 = true ∧
    elems (RemoverCarro c id).1 =
      (elems c).filter (fun carro => carro.ID != id) ∧
    (∀ carro ∈ elems (RemoverCarro c id).1, carro.ID ≠ id) ∧
    (RemoverCarro c id).1.carrosMap.length + 1 = c.carrosMap.length := by
  have hred : RemoverCarro c id =
      (SalvarJSON
        { c with carrosMap := mapErase c.carrosMap id
                 carros := rebuildGoSlice ((elems c).filter
                   (fun carro => carro.ID != id)) }, true) := by
    unfold RemoverCarro
    rw [h]
  have helems : elems (RemoverCarro c id).1 =
      (elems c).filter (fun carro => carro.ID != id) := by
    rw [hred]
    exact getD_rebuildGoSlice _
  refine ⟨by rw [hred], helems, ?_, ?_⟩
  · intro carro hcar
    rw [helems] at hcar
    have := List.of_mem_filter hcar
    simpa using this
  · rw [hred]
    exact mapErase_length h hnd

theorem c9_delete_all_occurrences_witness :
    List.lookup "car_1"
      (⟨[("car_1", ⟨"car_1", "t", "c", 2020, "", 1, "j", "d"⟩)],
        some [⟨"car_1", "t", "c", 2020, "", 1, "j", "d"⟩,
              ⟨"car_1", "t", "c", 2020, "", 1, "j", "d"⟩], none⟩ :
        CadastroCarros).carrosMap =
      some ⟨"car_1", "t", "c", 2020, "", 1, "j", "d"⟩ ∧
    ((⟨[("car_1", ⟨"car_1", "t", "c", 2020, "", 1, "j", "d"⟩)],
        some [⟨"car_1", "t", "c", 2020, "", 1, "j", "d"⟩,
              ⟨"car_1", "t", "c", 2020, "", 1, "j", "d"⟩], none⟩ :
        CadastroCarros).carrosMap.map Prod.fst).Nodup ∧
    ((RemoverCarro (⟨[("car_1", ⟨"car_1", "t", "c", 2020, "", 1, "j", "d"⟩)],
        some [⟨"car_1", "t", "c", 2020, "", 1, "j", "d"⟩,
              ⟨"car_1", "t", "c", 2020, "", 1, "j", "d"⟩], none⟩ :
        CadastroCarros) "car_1").2 = true ∧
    elems (RemoverCarro (⟨[("car_1", ⟨"car_1", "t", "c", 2020, "", 1, "j", "d"⟩)],
        some [⟨"car_1", "t", "c", 2020, "", 1, "j", "d"⟩,
              ⟨"car_1", "t", "c", 2020, "", 1, "j", "d"⟩], none⟩ :
        CadastroCarros) "car_1").1 =
      (elems (⟨[("car_1", ⟨"car_1", "t", "c", 2020, "", 1, "j", "d"⟩)],
        some [⟨"car_1", "t", "c", 2020, "", 1, "j", "d"⟩,
              ⟨"car_1", "t", "c", 2020, "", 1, "j", "d"⟩], none⟩ :
        CadastroCarros)).filter (fun carro => carro.ID != "car_1") ∧
    (∀ carro ∈ elems (RemoverCarro
        (⟨[("car_1", ⟨"car_1", "t", "c", 2020, "", 1, "j", "d"⟩)],
          some [⟨"car_1", "t", "c", 2020, "", 1, "j", "d"⟩,
                ⟨"car_1", "t", "c", 2020, "", 1, "j", "d"⟩], none⟩ :
          CadastroCarros) "car_1").1, carro.ID ≠ "car_1") ∧
    (RemoverCarro (⟨[("car_1", ⟨"car_1", "t", "c", 2020, "", 1, "j", "d"⟩)],
        some [⟨"car_1", "t", "c", 2020, "", 1, "j", "d"⟩,
              ⟨"car_1", "t", "c", 2020, "", 1, "j", "d"⟩], none⟩ :
        CadastroCarros) "car_1").1.carrosMap.length + 1 =
      (⟨[("car_1", ⟨"car_1", "t", "c", 2020, "", 1, "j", "d"⟩)],
        some [⟨"car_1", "t", "c", 2020, "", 1, "j", "d"⟩,
              ⟨"car_1", "t", "c", 2020, "", 1, "j", "d"⟩], none⟩ :
        CadastroCarros).carrosMap.length) :=
  ⟨by decide, by decide,
    c9_delete_all_occurrences
      (⟨[("car_1", ⟨"car_1", "t", "c", 2020, "", 1, "j", "d"⟩)],
        some [⟨"car_1", "t", "c", 2020, "", 1, "j", "d"⟩,
              ⟨"car_1", "t", "c", 2020, "", 1, "j", "d"⟩], none⟩ :
        CadastroCarros) "car_1" ⟨"car_1", "t", "c", 2020, "", 1, "j", "d"⟩
      (by decide) (by decide)⟩

/-- C10: the interactive driver lowercases the whole command line before
splitting, so any identifier argument reaching find/remove/update holds no
ASCII uppercase letter and equals its own lowercasing; identifiers generated
by Create are `car_` followed by decimal digits, hence lowercase and
unaffected; and a stored identifier containing an ASCII uppercase letter can
never equal an argument produced by the driver, so such a record can never
be matched through the interactive interface. -/
theorem c10_lowercased_interface (line arg id : String) (n : Nat)
    (hparse : parseComando line = Comando.find arg ∨
      parseComando line = Comando.remove arg ∨
      parseComando line = Comando.update arg)
    (hid : hasUpper id = true) :
    noUpper arg = true ∧ goToLower arg = arg ∧ arg ≠ id ∧
      noUpper (gerarID n) = true ∧ goToLower (gerarID n) = gerarID n ∧
      (gerarID n).data = 'c' :: 'a' :: 'r' :: '_' :: decDigits n ∧
      ∀ c ∈ decDigits n, 48 ≤ c.toNat ∧ c.toNat ≤ 57 := by
  have harg : argOf (parseComando line) = some arg := by
    rcases hparse with h | h | h <;> rw [h] <;> rfl
  have hmem := argOf_parseComando harg
  have hnoU : noUpper arg = true := noUpper_of_mem_fields_toLower hmem
  have hne : arg ≠ id := by
    intro he
    rw [he] at hnoU
    simp only [hasUpper, List.any_eq_true] at hid
    obtain ⟨ch, hch, hchu⟩ := hid
    simp only [noUpper, List.all_eq_true] at hnoU
    have := hnoU ch hch
    simp [hchu] at this
  exact ⟨hnoU, goToLower_of_noUpper hnoU, hne, noUpper_gerarID n,
    goToLower_of_noUpper (noUpper_gerarID n), rfl, decDigits_mem⟩

theorem c10_lowercased_interface_witness :
    (parseComando "find Car_9" = Comando.find "car_9" ∨
      parseComando "find Car_9" = Comando.remove "car_9" ∨
      parseComando "find Car_9" = Comando.update "car_9") ∧
    hasUpper "Car_9" = true ∧
    (noUpper "car_9" = true ∧ goToLower "car_9" = "car_9" ∧ "car_9" ≠ "Car_9" ∧
      noUpper (gerarID 17) = true ∧ goToLower (gerarID 17) = gerarID 17 ∧
      (gerarID 17).data = 'c' :: 'a' :: 'r' :: '_' :: decDigits 17 ∧
      ∀ c ∈ decDigits 17, 48 ≤ c.toNat ∧ c.toNat ≤ 57) :=
  ⟨Or.inl (by decide), by decide,
    c10_lowercased_interface "find Car_9" "car_9" "Car_9" 17
      (Or.inl (by decide)) (by decide)⟩

end Cars

